import Mathlib

/-!
Shallow embedding of `src/auto_cleanup.py` (the OCI lab auto-cleanup script),
covering the discovery part of the script: lines 76-184, from the fetch of the
supported-resource-type catalog through the region scan loop and the final
cleanup invocation.  The backend (OCI identity / resource-search services and
the external `cleanup.py` process) is modelled as an explicit `Backend` record
of responses; every `print` of the script is modelled as a `LogEntry`, every
remote search request as a `Query`, and `sys.exit` codes / falling off the end
of the script as the run's `exit_code`.
-/

/-- One result item of a resource-search query: `resource_type`,
`display_name` and the optional `lifecycle_state` attribute. -/
structure ResourceItem where
  resource_type : String
  display_name : String
  lifecycle_state : Option String
deriving DecidableEq

/-- Outcome of one remote search call: a normal result list, an
`oci.exceptions.ServiceError` (with code and message), or any other
exception (with message). -/
inductive QueryResult where
  | ok (items : List ResourceItem)
  | serviceError (code msg : String)
  | otherError (msg : String)
deriving DecidableEq

/-- The print statements of lines 76-184 of the script, one constructor per
distinct message, carrying the data interpolated into the message. -/
inductive LogEntry where
  | fatalTypeList (msg : String)
  | foundSearchable (region : String)
  | item (rtype name : String) (state : Option String)
  | searchableEmpty (region : String)
  | searchServiceError (region code msg : String)
  | searchUnexpectedError (region msg : String)
  | foundBillable (region : String)
  | typeServiceError (region rtype code : String)
  | noResources (region : String)
  | skipCleanup
  | summaryLine (region : String) (reason : Option String)
  | runCleanup (regionList : String)
  | cleanupFailed
deriving DecidableEq

/-- One remote search request: the broad PASS-1 query of a region, or the
per-type PASS-2 query of a region. -/
inductive Query where
  | broad (region : String)
  | typed (region rtype : String)
deriving DecidableEq

/-- The environment of one run: the response to
`list_resource_types()` (line 77), the response to the broad PASS-1
search in each region (line 111), the response to each per-type PASS-2
search (line 140), the subscribed regions (line 90), and the exit code
of the external `./cleanup.py` process (line 181). -/
structure Backend where
  resource_types : Except String (List String)
  searchAll : String → QueryResult
  searchType : String → String → QueryResult
  regions : List String
  cleanup_exit : Nat

/-- The mutable scan state of lines 91-92: the set `found_regions`
(modelled as a duplicate-free list in insertion order) and the dict
`reason_by_region` (modelled as an association list, one entry per key). -/
structure ScanState where
  found_regions : List String
  reason_by_region : List (String × String)
deriving DecidableEq

/-- Python's `str.upper()` (ASCII case mapping, as used by the script's
lifecycle states). -/
def strUpper (s : String) : String := ⟨s.data.map Char.toUpper⟩

/-- Python's `str.lower()` (ASCII case mapping, as used by the script's
resource-type names). -/
def strLower (s : String) : String := ⟨s.data.map Char.toLower⟩

/-- Python's `<` on strings: lexicographic comparison of code points. -/
def charListLt : List Char → List Char → Bool
  | _, [] => false
  | [], _ :: _ => true
  | a :: as, b :: bs =>
    if a.toNat < b.toNat then true
    else if b.toNat < a.toNat then false
    else charListLt as bs

/-- Python's `<` on strings, on `String`. -/
def strLt (a b : String) : Bool := charListLt a.data b.data

/-- Insert a string into a sorted list (ascending code-point order). -/
def insertStr (x : String) : List String → List String
  | [] => [x]
  | y :: ys => if strLt x y then x :: y :: ys else y :: insertStr x ys

/-- Python's `sorted` on a collection of strings. -/
def sortStrs (l : List String) : List String := l.foldr insertStr []

/-- Python's `set.add`: append the element unless already present. -/
def setAdd (l : List String) (x : String) : List String :=
  if l.contains x then l else l ++ [x]

/-- Python's `dict[k] = v`: overwrite the entry for `k` or append it. -/
def dictSet (l : List (String × String)) (k v : String) : List (String × String) :=
  match l with
  | [] => [(k, v)]
  | p :: rest => if p.1 = k then (k, v) :: rest else p :: dictSet rest k v

/-- Python's `dict.get(k)`: the value stored for `k`, if any. -/
def lookupDict (l : List (String × String)) (k : String) : Option String :=
  match l with
  | [] => none
  | p :: rest => if p.1 = k then some p.2 else lookupDict rest k

/-- Line 82: `supported_lower = {t.lower(): t for t in supported_resource_types}`. -/
def buildSupportedLower (ts : List String) : List (String × String) :=
  ts.foldl (fun d t => dictSet d (strLower t) t) []

/-- Lines 46-73: the curated `important_billable_resources` set, in source
order (a Python set literal; only its sorted order is ever used). -/
def important_billable_resources : List String :=
  ["Instance", "BootVolume", "Volume", "Image", "InstancePool",
   "VolumeBackup", "BootVolumeBackup", "VolumeGroup",
   "DbSystem", "AutonomousDatabase", "AutonomousDatabaseBackup",
   "LoadBalancer",
   "Bucket", "FileSystem", "MountTarget",
   "Stream", "StreamPool",
   "Vault", "Key", "Secret",
   "Cluster", "NodePool",
   "AnalyticsInstance", "IntegrationInstance",
   "Function", "ApiGateway", "ApiDeployment",
   "Alarm", "LogGroup", "Log",
   "Vcn", "Subnet", "Drg", "InternetGateway",
   "NATGateway", "ServiceGateway", "RouteTable", "SecurityList",
   "ServiceConnector", "Bastion"]

/-- Lines 83-87: `billable_types = [supported_lower[r.lower()] for r in
sorted(important_billable_resources) if r.lower() in supported_lower]`. -/
def billable_types (supported : List String) : List String :=
  (sortStrs important_billable_resources).filterMap
    (fun rtype => lookupDict (buildSupportedLower supported) (strLower rtype))

/-- Lines 94-100: `is_active(item)` — active when `lifecycle_state` is
absent or empty, otherwise when the upper-cased state is not terminal. -/
def terminal_states : List String := ["TERMINATED", "DELETED", "INACTIVE"]

/-- Lines 94-100 continued: the `is_active` predicate itself. -/
def is_active (item : ResourceItem) : Bool :=
  match item.lifecycle_state with
  | none => true
  | some st => if st = "" then true else !(terminal_states.contains (strUpper st))

/-- Lines 122-123 and 152-153: `for it in active[:10]: print(...)`. -/
def takeSampleLog (items : List ResourceItem) : List LogEntry :=
  (items.take 10).map (fun it => LogEntry.item it.resource_type it.display_name it.lifecycle_state)

/-- Lines 108-133 (PASS 1, the broad searchable query of one region):
the log it prints and whether it found active resources. -/
def pass1 (b : Backend) (region : String) : List LogEntry × Bool :=
  match b.searchAll region with
  | QueryResult.ok items =>
    let active := items.filter is_active
    if active.isEmpty then
      ([LogEntry.searchableEmpty region], false)
    else
      (LogEntry.foundSearchable region :: takeSampleLog active, true)
  | QueryResult.serviceError code msg => ([LogEntry.searchServiceError region code msg], false)
  | QueryResult.otherError msg => ([LogEntry.searchUnexpectedError region msg], false)

/-- Lines 138-158 (one PASS-2 iteration for one billable type): the log it
prints and the updated `billable_hit` flag.  A `ServiceError` is printed
as a warning; any other exception is swallowed by `except Exception: pass`. -/
def pass2Step (b : Backend) (region rtype : String) (hit : Bool) : List LogEntry × Bool :=
  match b.searchType region rtype with
  | QueryResult.ok items =>
    let active_items := items.filter is_active
    if active_items.isEmpty then ([], hit)
    else ((if hit then [] else [LogEntry.foundBillable region]) ++ takeSampleLog active_items, true)
  | QueryResult.serviceError code _msg => ([LogEntry.typeServiceError region rtype code], hit)
  | QueryResult.otherError _msg => ([], hit)

/-- The log, queries and final `billable_hit` of a PASS-2 loop. -/
structure Pass2Out where
  log : List LogEntry
  queries : List Query
  hit : Bool
deriving DecidableEq

/-- Line 137: `for rtype in billable_types` — one query per type, no
early exit (the source's comment on line 154 keeps looping for
visibility). -/
def pass2Loop (b : Backend) (region : String) : List String → Bool → Pass2Out
  | [], hit => ⟨[], [], hit⟩
  | t :: ts, hit =>
    let s := pass2Step b region t hit
    let rest := pass2Loop b region ts s.2
    ⟨s.1 ++ rest.log, Query.typed region t :: rest.queries, rest.hit⟩

/-- The log, queries and updated scan state of one region iteration. -/
structure RegionOut where
  log : List LogEntry
  queries : List Query
  state : ScanState

/-- Lines 103-164: one iteration of the region loop.  PASS 1 runs first;
on a hit the region is recorded with reason `"searchable"` and PASS 2 is
skipped (`continue`, line 126).  Otherwise PASS 2 runs over all billable
types; on a hit the region is recorded with reason `"billable"`, else the
region is reported as having no resources. -/
def scanRegion (b : Backend) (bt : List String) (s : ScanState) (region : String) : RegionOut :=
  let p1 := pass1 b region
  if p1.2 then
    ⟨p1.1, [Query.broad region],
     ⟨setAdd s.found_regions region, dictSet s.reason_by_region region "searchable"⟩⟩
  else
    let p2 := pass2Loop b region bt false
    if p2.hit then
      ⟨p1.1 ++ p2.log, Query.broad region :: p2.queries,
       ⟨setAdd s.found_regions region, dictSet s.reason_by_region region "billable"⟩⟩
    else
      ⟨p1.1 ++ p2.log ++ [LogEntry.noResources region], Query.broad region :: p2.queries, s⟩

/-- The full region loop, threading the scan state through all regions. -/
def scanRegions (b : Backend) (bt : List String) : List String → ScanState → RegionOut
  | [], s => ⟨[], [], s⟩
  | r :: rs, s =>
    let o := scanRegion b bt s r
    let rest := scanRegions b bt rs o.state
    ⟨o.log ++ rest.log, o.queries ++ rest.queries, rest.state⟩

/-- The whole scan of a run: all regions, starting from the empty state,
with the billable types resolved once from `supported`. -/
def scanOf (b : Backend) (supported : List String) : RegionOut :=
  scanRegions b (billable_types supported) b.regions ⟨[], []⟩

/-- The observable outcome of one run: log, queries, final scan state,
process exit code, and the region-list argument of each `./cleanup.py`
invocation. -/
structure RunOut where
  log : List LogEntry
  queries : List Query
  state : ScanState
  exit_code : Nat
  cleanup_calls : List String

/-- Lines 76-184: the discovery run.  A failed type-catalog fetch exits 1
at once (lines 78-80).  An empty `found_regions` prints the skip message
and exits 0 (lines 167-169).  Otherwise the sorted summary is printed and
`./cleanup.py -c <compartment> -r <sorted,joined,regions>` is run once;
a non-zero cleanup exit is caught and printed (lines 180-183) and the
script then falls off the end, exiting 0. -/
def runDiscovery (b : Backend) : RunOut :=
  match b.resource_types with
  | Except.error e => ⟨[LogEntry.fatalTypeList e], [], ⟨[], []⟩, 1, []⟩
  | Except.ok supported =>
    let scan := scanOf b supported
    if scan.state.found_regions.isEmpty then
      ⟨scan.log ++ [LogEntry.skipCleanup], scan.queries, scan.state, 0, []⟩
    else
      let sortedR := sortStrs scan.state.found_regions
      let summary := sortedR.map
        (fun r => LogEntry.summaryLine r (lookupDict scan.state.reason_by_region r))
      let region_list := String.intercalate "," sortedR
      ⟨scan.log ++ summary ++ [LogEntry.runCleanup region_list] ++
         (if b.cleanup_exit = 0 then [] else [LogEntry.cleanupFailed]),
       scan.queries, scan.state, 0, [region_list]⟩

/-- A single active Bucket, as the spec's end-to-end scenario uses. -/
def bucketItem : ResourceItem := ⟨"Bucket", "my-bucket", some "ACTIVE"⟩

/-- The spec's end-to-end scenario: regions `us-ashburn-1` and
`uk-london-1`, one active Bucket in `uk-london-1` only, a catalog
supporting `Bucket` and `Instance`, cleanup succeeding. -/
def e2eBackend : Backend :=
  ⟨Except.ok ["Bucket", "Instance"],
   fun region => if region = "uk-london-1" then QueryResult.ok [bucketItem] else QueryResult.ok [],
   fun _ _ => QueryResult.ok [],
   ["us-ashburn-1", "uk-london-1"],
   0⟩

/-- A backend with no resources anywhere. -/
def emptyBackend : Backend :=
  ⟨Except.ok ["Bucket"],
   fun _ => QueryResult.ok [],
   fun _ _ => QueryResult.ok [],
   ["r1"],
   0⟩

/-- A backend whose first billable type (`Bucket`) holds an active item
while the broad query returns nothing. -/
def c2Backend : Backend :=
  ⟨Except.ok ["Bucket", "Instance"],
   fun _ => QueryResult.ok [],
   fun _ t => if t = "Bucket" then QueryResult.ok [bucketItem] else QueryResult.ok [],
   ["r1"],
   0⟩

/-- A backend whose first billable type query raises a generic exception
while the second billable type holds an active item. -/
def c4Backend : Backend :=
  ⟨Except.ok ["Bucket", "Instance"],
   fun _ => QueryResult.ok [],
   fun _ t => if t = "Bucket" then QueryResult.otherError "boom" else QueryResult.ok [bucketItem],
   ["r1"],
   0⟩

/-- A backend whose catalog supports only `Instance`, so the curated
entry `Bucket` is unsupported. -/
def c7Backend : Backend :=
  ⟨Except.ok ["Instance"],
   fun _ => QueryResult.ok [],
   fun _ _ => QueryResult.ok [],
   ["r1"],
   0⟩

/-- A backend whose broad query raises an unexpected error and whose
per-type queries all fail with a service error. -/
def c8Backend : Backend :=
  ⟨Except.ok ["Bucket"],
   fun _ => QueryResult.otherError "boom",
   fun _ _ => QueryResult.serviceError "500" "err",
   ["r1"],
   0⟩

/-- A backend with one active region whose external cleanup process
exits non-zero. -/
def c9Backend : Backend :=
  ⟨Except.ok ["Bucket"],
   fun _ => QueryResult.ok [bucketItem],
   fun _ _ => QueryResult.ok [],
   ["r1"],
   1⟩

/-- A backend whose type-catalog fetch fails. -/
def fatalBackend : Backend :=
  ⟨Except.error "timeout",
   fun _ => QueryResult.ok [bucketItem],
   fun _ _ => QueryResult.ok [bucketItem],
   ["r1"],
   0⟩

/-! ### Order bridge: `strLt` agrees with Mathlib's linear order on `String` -/

theorem charLt_iff (a b : Char) : a < b ↔ a.toNat < b.toNat := by
  rw [Char.lt_def]; exact Iff.rfl

theorem charListLt_iff_lex : ∀ as bs : List Char,
    charListLt as bs = true ↔ List.Lex (· < ·) as bs
  | [], [] => by
      simp only [charListLt]
      exact iff_of_false (by simp) (List.Lex.not_nil_right _ _)
  | [], _ :: _ => by
      simp only [charListLt]
      exact iff_of_true (by simp) List.Lex.nil
  | _ :: _, [] => by
      simp only [charListLt]
      exact iff_of_false (by simp) (List.Lex.not_nil_right _ _)
  | a :: as, b :: bs => by
      simp only [charListLt]
      by_cases h1 : a.toNat < b.toNat
      · rw [if_pos h1]
        exact iff_of_true rfl (List.Lex.rel ((charLt_iff a b).mpr h1))
      · rw [if_neg h1]
        by_cases h2 : b.toNat < a.toNat
        · rw [if_pos h2]
          refine iff_of_false (by simp) ?_
          intro hl
          cases hl with
          | rel hr => exact h1 ((charLt_iff a b).mp hr)
          | cons ht => exact Nat.lt_irrefl _ h2
        · rw [if_neg h2]
          have hEq : a = b :=
            Char.ext (UInt32.ext (Nat.le_antisymm (Nat.le_of_not_lt h2) (Nat.le_of_not_lt h1)))
          subst hEq
          constructor
          · intro h
            exact List.Lex.cons ((charListLt_iff_lex as bs).mp h)
          · intro hl
            cases hl with
            | rel hr => exact absurd ((charLt_iff a a).mp hr) (Nat.lt_irrefl _)
            | cons ht => exact (charListLt_iff_lex as bs).mpr ht

theorem strLt_iff (a b : String) : strLt a b = true ↔ a < b := by
  rw [String.lt_iff_toList_lt]
  exact charListLt_iff_lex a.data b.data

theorem strLt_false_iff (a b : String) : strLt a b = false ↔ b ≤ a := by
  rw [← Bool.not_eq_true, not_iff_comm.symm]
  rw [strLt_iff, not_le]

/-! ### Lemmas about `insertStr` / `sortStrs` -/

theorem mem_insertStr (x y : String) : ∀ l : List String, y ∈ insertStr x l ↔ y = x ∨ y ∈ l
  | [] => by simp [insertStr]
  | z :: zs => by
      by_cases h : strLt x z
      · simp [insertStr, h]
      · simp only [insertStr, h, if_false, Bool.false_eq_true, List.mem_cons,
          mem_insertStr x y zs]
        tauto

theorem nodup_insertStr (x : String) :
    ∀ l : List String, l.Nodup → x ∉ l → (insertStr x l).Nodup
  | [], _, _ => List.nodup_singleton x
  | z :: zs, hn, hx => by
      by_cases h : strLt x z
      · simp only [insertStr, h, if_true]
        exact List.Nodup.cons hx hn
      · simp only [insertStr, h, if_false, Bool.false_eq_true]
        have hzx : z ≠ x := fun he => hx (he ▸ List.mem_cons_self z zs)
        refine List.Nodup.cons ?_ (nodup_insertStr x zs (List.Nodup.of_cons hn)
          (fun hm => hx (List.mem_cons_of_mem z hm)))
        intro hm
        rcases (mem_insertStr x z zs).mp hm with he | hm'
        · exact hzx he
        · exact (List.nodup_cons.mp hn).1 hm'

theorem pairwise_insertStr (x : String) :
    ∀ l : List String, l.Pairwise (· ≤ ·) → (insertStr x l).Pairwise (· ≤ ·)
  | [], _ => List.pairwise_singleton _ x
  | z :: zs, hp => by
      rcases List.pairwise_cons.mp hp with ⟨hz, hzs⟩
      by_cases h : strLt x z
      · simp only [insertStr, h, if_true]
        refine List.pairwise_cons.mpr ⟨?_, hp⟩
        intro y hy
        have hxz : x ≤ z := le_of_lt ((strLt_iff x z).mp h)
        rcases List.mem_cons.mp hy with he | hm
        · exact he ▸ hxz
        · exact le_trans hxz (hz y hm)
      · simp only [insertStr, h, if_false, Bool.false_eq_true]
        refine List.pairwise_cons.mpr ⟨?_, pairwise_insertStr x zs hzs⟩
        intro y hy
        rcases (mem_insertStr x y zs).mp hy with he | hm
        · exact he ▸ (strLt_false_iff x z).mp (Bool.eq_false_iff.mpr h)
        · exact hz y hm

theorem sortStrs_cons (x : String) (xs : List String) :
    sortStrs (x :: xs) = insertStr x (sortStrs xs) := rfl

theorem mem_sortStrs (y : String) : ∀ l : List String, y ∈ sortStrs l ↔ y ∈ l
  | [] => Iff.rfl
  | x :: xs => by
      rw [sortStrs_cons, mem_insertStr, mem_sortStrs y xs, List.mem_cons]

theorem nodup_sortStrs : ∀ l : List String, l.Nodup → (sortStrs l).Nodup
  | [], _ => List.nodup_nil
  | x :: xs, hn => by
      rw [sortStrs_cons]
      rcases List.nodup_cons.mp hn with ⟨hx, hxs⟩
      exact nodup_insertStr x (sortStrs xs) (nodup_sortStrs xs hxs)
        (fun hm => hx ((mem_sortStrs x xs).mp hm))

theorem pairwise_sortStrs : ∀ l : List String, (sortStrs l).Pairwise (· ≤ ·)
  | [] => List.Pairwise.nil
  | x :: xs => by
      rw [sortStrs_cons]
      exact pairwise_insertStr x (sortStrs xs) (pairwise_sortStrs xs)

/-! ### Lemmas about `setAdd`, `dictSet`, `lookupDict` -/

theorem mem_setAdd (l : List String) (x y : String) : y ∈ setAdd l x ↔ y ∈ l ∨ y = x := by
  unfold setAdd
  by_cases h : l.contains x
  · rw [if_pos h]
    have hx : x ∈ l := List.elem_iff.mp h
    constructor
    · exact Or.inl
    · rintro (hm | he)
      · exact hm
      · exact he ▸ hx
  · rw [if_neg h]
    simp

theorem nodup_setAdd (l : List String) (x : String) (h : l.Nodup) : (setAdd l x).Nodup := by
  unfold setAdd
  by_cases hc : l.contains x
  · rw [if_pos hc]; exact h
  · rw [if_neg hc]
    have hx : x ∉ l := fun hm => hc (List.elem_iff.mpr hm)
    simp [List.nodup_append, h, hx]

theorem lookupDict_dictSet_self (k v : String) :
    ∀ l : List (String × String), lookupDict (dictSet l k v) k = some v
  | [] => by simp [dictSet, lookupDict]
  | p :: rest => by
      by_cases h : p.1 = k
      · simp [dictSet, h, lookupDict]
      · simp only [dictSet, h, if_false]
        simp only [lookupDict, h, if_false]
        exact lookupDict_dictSet_self k v rest

theorem lookupDict_dictSet_ne (k v k' : String) (hne : k' ≠ k) :
    ∀ l : List (String × String), lookupDict (dictSet l k v) k' = lookupDict l k'
  | [] => by
      by_cases hk : k = k'
      · exact absurd hk.symm hne
      · simp [dictSet, lookupDict, hk]
  | p :: rest => by
      by_cases h : p.1 = k
      · rw [show dictSet (p :: rest) k v = (k, v) :: rest from by simp [dictSet, h]]
        show lookupDict ((k, v) :: rest) k' = lookupDict (p :: rest) k'
        simp only [lookupDict]
        by_cases h2 : k = k'
        · exact absurd h2.symm hne
        · rw [if_neg h2, if_neg (fun hk : p.1 = k' => h2 (h.symm.trans hk))]
      · rw [show dictSet (p :: rest) k v = p :: dictSet rest k v from by simp [dictSet, h]]
        simp only [lookupDict]
        by_cases h' : p.1 = k'
        · rw [if_pos h', if_pos h']
        · rw [if_neg h', if_neg h']
          exact lookupDict_dictSet_ne k v k' hne rest

theorem mem_dictSet (k v : String) :
    ∀ (l : List (String × String)) (p : String × String),
      p ∈ dictSet l k v → p = (k, v) ∨ p ∈ l
  | [], p, hp => by simpa [dictSet] using hp
  | q :: rest, p, hp => by
      by_cases h : q.1 = k
      · simp only [dictSet, h, if_true] at hp
        rcases List.mem_cons.mp hp with he | hm
        · exact Or.inl he
        · exact Or.inr (List.mem_cons_of_mem q hm)
      · simp only [dictSet, h, if_false] at hp
        rcases List.mem_cons.mp hp with he | hm
        · exact Or.inr (he ▸ List.mem_cons_self q rest)
        · rcases mem_dictSet k v rest p hm with he | hm'
          · exact Or.inl he
          · exact Or.inr (List.mem_cons_of_mem q hm')

theorem fst_mem_dictSet (k v x : String) :
    ∀ l : List (String × String),
      x ∈ (dictSet l k v).map Prod.fst ↔ x ∈ l.map Prod.fst ∨ x = k
  | [] => by simp [dictSet]
  | p :: rest => by
      by_cases h : p.1 = k
      · simp only [dictSet, h, if_true, List.map_cons, List.mem_cons]
        tauto
      · simp only [dictSet, h, if_false, List.map_cons, List.mem_cons,
          fst_mem_dictSet k v x rest]
        tauto

theorem nodup_keys_dictSet (k v : String) :
    ∀ l : List (String × String),
      (l.map Prod.fst).Nodup → ((dictSet l k v).map Prod.fst).Nodup
  | [], _ => List.nodup_singleton k
  | p :: rest, hn => by
      rw [List.map_cons] at hn
      rcases List.nodup_cons.mp hn with ⟨hp, hrest⟩
      by_cases h : p.1 = k
      · simp only [dictSet, h, if_true, List.map_cons]
        exact List.Nodup.cons (h ▸ hp) hrest
      · simp only [dictSet, h, if_false, List.map_cons]
        refine List.Nodup.cons ?_ (nodup_keys_dictSet k v rest hrest)
        intro hm
        rcases (fst_mem_dictSet k v p.1 rest).mp hm with hm' | he
        · exact hp hm'
        · exact h he

theorem lookupDict_isSome (k : String) :
    ∀ l : List (String × String), (lookupDict l k).isSome = true ↔ k ∈ l.map Prod.fst
  | [] => by simp [lookupDict]
  | p :: rest => by
      by_cases h : p.1 = k
      · simp [lookupDict, h]
      · simp only [lookupDict, h, if_false, List.map_cons, List.mem_cons,
          lookupDict_isSome k rest]
        constructor
        · exact Or.inr
        · rintro (he | hm)
          · exact absurd he.symm h
          · exact hm

/-! ### The scan-state invariant -/

/-- The loop invariant of the region scan: `found_regions` is
duplicate-free, the reason dict has one entry per key, a region is in
`found_regions` exactly when it has a recorded reason, and every reason
is `"searchable"` or `"billable"`. -/
def goodState (s : ScanState) : Prop :=
  s.found_regions.Nodup ∧
  (s.reason_by_region.map Prod.fst).Nodup ∧
  (∀ r, r ∈ s.found_regions ↔ (lookupDict s.reason_by_region r).isSome = true) ∧
  (∀ p ∈ s.reason_by_region, p.2 = "searchable" ∨ p.2 = "billable")

theorem goodState_init : goodState ⟨[], []⟩ := by
  refine ⟨List.nodup_nil, List.nodup_nil, ?_, ?_⟩
  · intro r; simp [lookupDict]
  · intro p hp; cases hp

theorem goodState_record (s : ScanState) (region v : String)
    (hv : v = "searchable" ∨ v = "billable") (hs : goodState s) :
    goodState ⟨setAdd s.found_regions region, dictSet s.reason_by_region region v⟩ := by
  obtain ⟨h1, h2, h3, h4⟩ := hs
  refine ⟨nodup_setAdd _ _ h1, nodup_keys_dictSet _ _ _ h2, ?_, ?_⟩
  · intro r
    rw [mem_setAdd]
    by_cases hr : r = region
    · subst hr
      rw [lookupDict_dictSet_self]
      simp
    · rw [lookupDict_dictSet_ne _ _ _ hr, ← h3 r]
      constructor
      · rintro (hm | he)
        · exact hm
        · exact absurd he hr
      · exact Or.inl
  · intro p hp
    rcases mem_dictSet _ _ _ p hp with he | hm
    · rw [he]; exact hv
    · exact h4 p hm

/-! ### Lemmas about the two passes and the region loop -/

theorem pass2Loop_queries (b : Backend) (region : String) :
    ∀ (ts : List String) (hit : Bool),
      (pass2Loop b region ts hit).queries = ts.map (Query.typed region)
  | [], _ => rfl
  | t :: ts, hit => by
      simp only [pass2Loop, List.map_cons]
      rw [pass2Loop_queries b region ts]

theorem pass2Step_hit_true (b : Backend) (region t : String) :
    (pass2Step b region t true).2 = true := by
  unfold pass2Step
  cases b.searchType region t with
  | ok items =>
      by_cases h : (items.filter is_active).isEmpty
      · simp [h]
      · simp [h]
  | serviceError code msg => rfl
  | otherError msg => rfl

theorem pass2Loop_hit_true (b : Backend) (region : String) :
    ∀ ts : List String, (pass2Loop b region ts true).hit = true
  | [] => rfl
  | t :: ts => by
      simp only [pass2Loop]
      rw [pass2Step_hit_true]
      exact pass2Loop_hit_true b region ts

theorem pass2Step_active_hit (b : Backend) (region t : String) (hit : Bool)
    (items : List ResourceItem) (hq : b.searchType region t = QueryResult.ok items)
    (ha : (items.filter is_active).isEmpty = false) :
    (pass2Step b region t hit).2 = true := by
  unfold pass2Step
  rw [hq]
  simp [ha]

theorem pass2Step_serviceError (b : Backend) (region t : String) (hit : Bool)
    (code msg : String) (hq : b.searchType region t = QueryResult.serviceError code msg) :
    pass2Step b region t hit = ([LogEntry.typeServiceError region t code], hit) := by
  unfold pass2Step
  rw [hq]

theorem pass2Step_otherError (b : Backend) (region t : String) (hit : Bool)
    (msg : String) (hq : b.searchType region t = QueryResult.otherError msg) :
    pass2Step b region t hit = ([], hit) := by
  unfold pass2Step
  rw [hq]

theorem pass2Loop_hit_of_mem (b : Backend) (region t' : String) (items : List ResourceItem)
    (hq : b.searchType region t' = QueryResult.ok items)
    (ha : (items.filter is_active).isEmpty = false) :
    ∀ (ts : List String) (hit : Bool), t' ∈ ts → (pass2Loop b region ts hit).hit = true
  | [], _, hmem => absurd hmem (List.not_mem_nil t')
  | t :: ts, hit, hmem => by
      simp only [pass2Loop]
      rcases List.mem_cons.mp hmem with heq | hmem'
      · subst heq
        rw [pass2Step_active_hit b region t' hit items hq ha]
        exact pass2Loop_hit_true b region ts
      · exact pass2Loop_hit_of_mem b region t' items hq ha ts _ hmem'

theorem scanRegion_found (b : Backend) (bt : List String) (s : ScanState) (region : String)
    (h : (pass1 b region).2 = true) :
    scanRegion b bt s region =
      ⟨(pass1 b region).1, [Query.broad region],
       ⟨setAdd s.found_regions region, dictSet s.reason_by_region region "searchable"⟩⟩ := by
  unfold scanRegion
  simp [h]

theorem scanRegion_billable (b : Backend) (bt : List String) (s : ScanState) (region : String)
    (h1 : (pass1 b region).2 = false) (h2 : (pass2Loop b region bt false).hit = true) :
    scanRegion b bt s region =
      ⟨(pass1 b region).1 ++ (pass2Loop b region bt false).log,
       Query.broad region :: (pass2Loop b region bt false).queries,
       ⟨setAdd s.found_regions region, dictSet s.reason_by_region region "billable"⟩⟩ := by
  unfold scanRegion
  simp [h1, h2]

theorem scanRegion_none (b : Backend) (bt : List String) (s : ScanState) (region : String)
    (h1 : (pass1 b region).2 = false) (h2 : (pass2Loop b region bt false).hit = false) :
    scanRegion b bt s region =
      ⟨(pass1 b region).1 ++ (pass2Loop b region bt false).log ++ [LogEntry.noResources region],
       Query.broad region :: (pass2Loop b region bt false).queries, s⟩ := by
  unfold scanRegion
  simp [h1, h2]

theorem goodState_scanRegion (b : Backend) (bt : List String) (s : ScanState) (region : String)
    (hs : goodState s) : goodState (scanRegion b bt s region).state := by
  cases h1 : (pass1 b region).2 with
  | true =>
      rw [scanRegion_found b bt s region h1]
      exact goodState_record s region "searchable" (Or.inl rfl) hs
  | false =>
      cases h2 : (pass2Loop b region bt false).hit with
      | true =>
          rw [scanRegion_billable b bt s region h1 h2]
          exact goodState_record s region "billable" (Or.inr rfl) hs
      | false =>
          rw [scanRegion_none b bt s region h1 h2]
          exact hs

theorem scanRegions_cons (b : Backend) (bt : List String) (r : String) (rs : List String)
    (s : ScanState) :
    scanRegions b bt (r :: rs) s =
      ⟨(scanRegion b bt s r).log ++ (scanRegions b bt rs (scanRegion b bt s r).state).log,
       (scanRegion b bt s r).queries ++ (scanRegions b bt rs (scanRegion b bt s r).state).queries,
       (scanRegions b bt rs (scanRegion b bt s r).state).state⟩ := rfl

theorem goodState_scanRegions (b : Backend) (bt : List String) :
    ∀ (rs : List String) (s : ScanState), goodState s → goodState (scanRegions b bt rs s).state
  | [], _, hs => hs
  | r :: rs, s, hs => by
      rw [scanRegions_cons]
      exact goodState_scanRegions b bt rs _ (goodState_scanRegion b bt s r hs)

theorem scanRegion_queries_nohit (b : Backend) (bt : List String) (s : ScanState)
    (region : String) (h1 : (pass1 b region).2 = false) :
    (scanRegion b bt s region).queries = Query.broad region :: bt.map (Query.typed region) := by
  cases h2 : (pass2Loop b region bt false).hit with
  | true =>
      rw [scanRegion_billable b bt s region h1 h2]
      rw [pass2Loop_queries]
  | false =>
      rw [scanRegion_none b bt s region h1 h2]
      rw [pass2Loop_queries]

/-! ### Lemmas about catalog resolution -/

theorem lookupDict_mem (k t : String) :
    ∀ l : List (String × String), lookupDict l k = some t → (k, t) ∈ l
  | [], h => by simp [lookupDict] at h
  | p :: rest, h => by
      by_cases hp : p.1 = k
      · simp only [lookupDict, hp, if_true, Option.some.injEq] at h
        have : p = (k, t) := Prod.ext hp h
        exact this ▸ List.mem_cons_self p rest
      · simp only [lookupDict, hp, if_false] at h
        exact List.mem_cons_of_mem p (lookupDict_mem k t rest h)

theorem mem_dictSet_foldl (P : String × String → Prop) :
    ∀ (ts : List String) (acc : List (String × String)),
      (∀ p ∈ acc, P p) → (∀ t ∈ ts, P (strLower t, t)) →
      ∀ p ∈ ts.foldl (fun d t => dictSet d (strLower t) t) acc, P p
  | [], _, hacc, _, p, hp => hacc p hp
  | t :: ts, acc, hacc, hts, p, hp => by
      refine mem_dictSet_foldl P ts (dictSet acc (strLower t) t) ?_ ?_ p hp
      · intro q hq
        rcases mem_dictSet _ _ _ q hq with he | hm
        · rw [he]; exact hts t (List.mem_cons_self t ts)
        · exact hacc q hm
      · intro u hu
        exact hts u (List.mem_cons_of_mem t hu)

theorem lookup_buildSupportedLower (supported : List String) (k t : String)
    (h : lookupDict (buildSupportedLower supported) k = some t) :
    t ∈ supported ∧ strLower t = k := by
  have hm := lookupDict_mem k t (buildSupportedLower supported) h
  have hP := mem_dictSet_foldl (fun p => p.2 ∈ supported ∧ strLower p.2 = p.1) supported []
    (by intro p hp; cases hp) (fun u hu => ⟨hu, rfl⟩) (k, t) hm
  exact hP

theorem mem_billable_types (supported : List String) (t : String) :
    t ∈ billable_types supported ↔
      ∃ r ∈ sortStrs important_billable_resources,
        lookupDict (buildSupportedLower supported) (strLower r) = some t := by
  unfold billable_types
  rw [List.mem_filterMap]

/-! ### Case equations of `runDiscovery` -/

theorem scanOf_def (b : Backend) (supported : List String) :
    scanOf b supported = scanRegions b (billable_types supported) b.regions ⟨[], []⟩ := rfl

theorem runDiscovery_skip (b : Backend) (supported : List String)
    (h : b.resource_types = Except.ok supported)
    (he : (scanOf b supported).state.found_regions = []) :
    runDiscovery b =
      ⟨(scanOf b supported).log ++ [LogEntry.skipCleanup], (scanOf b supported).queries,
       (scanOf b supported).state, 0, []⟩ := by
  unfold runDiscovery
  rw [h]
  simp [he]

theorem runDiscovery_invoke (b : Backend) (supported : List String)
    (h : b.resource_types = Except.ok supported)
    (hne : (scanOf b supported).state.found_regions ≠ []) :
    runDiscovery b =
      ⟨(scanOf b supported).log ++
         (sortStrs (scanOf b supported).state.found_regions).map
           (fun r => LogEntry.summaryLine r
              (lookupDict (scanOf b supported).state.reason_by_region r)) ++
         [LogEntry.runCleanup
            (String.intercalate "," (sortStrs (scanOf b supported).state.found_regions))] ++
         (if b.cleanup_exit = 0 then [] else [LogEntry.cleanupFailed]),
       (scanOf b supported).queries, (scanOf b supported).state, 0,
       [String.intercalate "," (sortStrs (scanOf b supported).state.found_regions)]⟩ := by
  have hf : (scanOf b supported).state.found_regions.isEmpty = false :=
    Bool.eq_false_iff.mpr (fun ht => hne (List.isEmpty_iff.mp ht))
  unfold runDiscovery
  rw [h]
  simp [hf]

/-! ### Claims -/

/-- C3: `is_active` returns true when the lifecycle-state field is absent
or empty, and for any non-empty state returns true iff the upper-cased
state is not in the terminal set; the comparison goes through
upper-casing (case-insensitive) and the function is a pure function of
the record. -/
theorem C3_is_active (ty nm st : String) (h : st ≠ "") :
    is_active ⟨ty, nm, none⟩ = true ∧
    is_active ⟨ty, nm, some ""⟩ = true ∧
    (is_active ⟨ty, nm, some st⟩ = true ↔ strUpper st ∉ terminal_states) := by
  refine ⟨rfl, rfl, ?_⟩
  show (if st = "" then true else !(terminal_states.contains (strUpper st))) = true ↔
    strUpper st ∉ terminal_states
  rw [if_neg h]
  by_cases hm : strUpper st ∈ terminal_states
  · have hc : terminal_states.contains (strUpper st) = true := List.elem_iff.mpr hm
    simp [hc, hm]
  · have hc : terminal_states.contains (strUpper st) = false :=
      Bool.eq_false_iff.mpr (fun ht => hm (List.elem_iff.mp ht))
    simp [hc, hm]

/-- Witness for C3 at the concrete mixed-case state "terminated". -/
theorem C3_witness :
    ("terminated" : String) ≠ "" ∧
    (is_active ⟨"Bucket", "b", none⟩ = true ∧
     is_active ⟨"Bucket", "b", some ""⟩ = true ∧
     (is_active ⟨"Bucket", "b", some "terminated"⟩ = true ↔
        strUpper "terminated" ∉ terminal_states)) :=
  ⟨by decide, C3_is_active "Bucket" "b" "terminated" (by decide)⟩

/-- C6: if the backend call listing supported resource types fails, the
run exits 1 immediately: no query is issued, no scan state is built, no
cleanup is invoked — no partial or best-effort catalog. -/
theorem C6_fatal (b : Backend) (e : String) (h : b.resource_types = Except.error e) :
    runDiscovery b = ⟨[LogEntry.fatalTypeList e], [], ⟨[], []⟩, 1, []⟩ := by
  unfold runDiscovery
  rw [h]

/-- Witness for C6 at a backend whose type-list call fails. -/
theorem C6_witness :
    fatalBackend.resource_types = Except.error "timeout" ∧
    runDiscovery fatalBackend = ⟨[LogEntry.fatalTypeList "timeout"], [], ⟨[], []⟩, 1, []⟩ :=
  ⟨rfl, C6_fatal fatalBackend "timeout" rfl⟩

/-- C5: if zero regions report findings, cleanup is skipped and the run
exits 0; if at least one region reports a finding, cleanup is invoked
exactly once with the comma-joined sorted deduplicated list of flagged
regions (the sorted list is pairwise ordered, duplicate-free, and holds
exactly the flagged regions). -/
theorem C5_terminal (b : Backend) (supported : List String)
    (h : b.resource_types = Except.ok supported) :
    ((scanOf b supported).state.found_regions = [] →
       (runDiscovery b).exit_code = 0 ∧ (runDiscovery b).cleanup_calls = [] ∧
       LogEntry.skipCleanup ∈ (runDiscovery b).log) ∧
    ((scanOf b supported).state.found_regions ≠ [] →
       (runDiscovery b).cleanup_calls =
         [String.intercalate "," (sortStrs (scanOf b supported).state.found_regions)] ∧
       (sortStrs (scanOf b supported).state.found_regions).Pairwise (· ≤ ·) ∧
       (sortStrs (scanOf b supported).state.found_regions).Nodup ∧
       (∀ r, r ∈ sortStrs (scanOf b supported).state.found_regions ↔
          r ∈ (scanOf b supported).state.found_regions)) := by
  constructor
  · intro he
    rw [runDiscovery_skip b supported h he]
    exact ⟨rfl, rfl, by simp⟩
  · intro hne
    rw [runDiscovery_invoke b supported h hne]
    refine ⟨rfl, pairwise_sortStrs _, ?_, fun r => mem_sortStrs r _⟩
    refine nodup_sortStrs _ ?_
    rw [scanOf_def]
    exact (goodState_scanRegions b _ b.regions ⟨[], []⟩ goodState_init).1

/-- Witness for C5 at a backend with no resources anywhere: cleanup is
skipped and the run exits 0. -/
theorem C5_witness :
    (scanOf emptyBackend ["Bucket"]).state.found_regions = [] ∧
    ((runDiscovery emptyBackend).exit_code = 0 ∧ (runDiscovery emptyBackend).cleanup_calls = [] ∧
     LogEntry.skipCleanup ∈ (runDiscovery emptyBackend).log) :=
  ⟨by decide, (C5_terminal emptyBackend ["Bucket"] rfl).1 (by decide)⟩

/-- C10: after the region loop, `found_regions` is duplicate-free, a
region is flagged exactly when it has a recorded reason, every reason is
"searchable" or "billable", each region has at most one reason entry,
and a region whose broad first pass found resources never runs the
second pass (its only query is the broad one). -/
theorem C10_invariant (b : Backend) (bt : List String) (regions : List String)
    (s : ScanState) (region : String) (h : (pass1 b region).2 = true) :
    (scanRegions b bt regions ⟨[], []⟩).state.found_regions.Nodup ∧
    (∀ r, r ∈ (scanRegions b bt regions ⟨[], []⟩).state.found_regions ↔
       (lookupDict (scanRegions b bt regions ⟨[], []⟩).state.reason_by_region r).isSome = true) ∧
    (∀ p ∈ (scanRegions b bt regions ⟨[], []⟩).state.reason_by_region,
       p.2 = "searchable" ∨ p.2 = "billable") ∧
    ((scanRegions b bt regions ⟨[], []⟩).state.reason_by_region.map Prod.fst).Nodup ∧
    (scanRegion b bt s region).queries = [Query.broad region] := by
  obtain ⟨g1, g2, g3, g4⟩ := goodState_scanRegions b bt regions ⟨[], []⟩ goodState_init
  refine ⟨g1, g3, g4, g2, ?_⟩
  rw [scanRegion_found b bt s region h]

/-- Witness for C10 at the end-to-end backend and the region whose broad
pass finds the Bucket. -/
theorem C10_witness :
    (pass1 e2eBackend "uk-london-1").2 = true ∧
    (scanRegion e2eBackend [] ⟨[], []⟩ "uk-london-1").queries = [Query.broad "uk-london-1"] :=
  ⟨by decide,
   (C10_invariant e2eBackend [] ["uk-london-1"] ⟨[], []⟩ "uk-london-1" (by decide)).2.2.2.2⟩

/-- C1 counterexample: in the spec's end-to-end scenario (one active
Bucket in uk-london-1 only) the flagged region's recorded reason is
"searchable", not "priority": the broad catalog-wide query is the FIRST
pass and runs in the Bucket's region, and no priority-type query is
issued there at all — so the broad pass is not "executed only if the
priority pass found no active resource". -/
theorem C1_counterexample :
    (runDiscovery e2eBackend).state.found_regions = ["uk-london-1"] ∧
    lookupDict (runDiscovery e2eBackend).state.reason_by_region "uk-london-1" =
      some "searchable" ∧
    ("searchable" : String) ≠ "priority" ∧
    Query.broad "uk-london-1" ∈ (runDiscovery e2eBackend).queries ∧
    Query.typed "uk-london-1" "Bucket" ∉ (runDiscovery e2eBackend).queries := by
  decide

/-- C1 (amended): the passes are ordered the other way round — the broad
catalog-wide pass runs first in every region, and the billable
(priority-type) pass is executed only if the broad pass found no active
resource; a region whose active resource the broad pass finds issues no
per-type query and is reported with reason "searchable"; end to end, a
compartment with one active Bucket in uk-london-1 only flags exactly
that region, with reason "searchable", and cleanup is invoked with
region list "uk-london-1". -/
theorem C1_amended (b : Backend) (bt : List String) (s : ScanState) (region : String)
    (h : (pass1 b region).2 = true) :
    ((scanRegion b bt s region).queries = [Query.broad region] ∧
     lookupDict (scanRegion b bt s region).state.reason_by_region region =
       some "searchable") ∧
    ((runDiscovery e2eBackend).state.found_regions = ["uk-london-1"] ∧
     lookupDict (runDiscovery e2eBackend).state.reason_by_region "uk-london-1" =
       some "searchable" ∧
     (runDiscovery e2eBackend).cleanup_calls = ["uk-london-1"]) := by
  refine ⟨?_, by decide⟩
  rw [scanRegion_found b bt s region h]
  exact ⟨rfl, lookupDict_dictSet_self _ _ _⟩

/-- Witness for C1 (amended) at the region whose broad pass finds the
Bucket. -/
theorem C1_witness :
    (pass1 e2eBackend "uk-london-1").2 = true ∧
    ((scanRegion e2eBackend ["Bucket", "Instance"] ⟨[], []⟩ "uk-london-1").queries =
       [Query.broad "uk-london-1"] ∧
     lookupDict (scanRegion e2eBackend ["Bucket", "Instance"] ⟨[], []⟩
       "uk-london-1").state.reason_by_region "uk-london-1" = some "searchable") :=
  ⟨by decide,
   (C1_amended e2eBackend ["Bucket", "Instance"] ⟨[], []⟩ "uk-london-1" (by decide)).1⟩

/-- C2 counterexample: in a region where the first billable type
(`Bucket`) yields an active item, the scanner still issues the query for
the next billable type (`Instance`) — there is no short-circuit (the
source's comment on line 154 keeps looping "for visibility"). -/
theorem C2_counterexample :
    (pass2Step c2Backend "r1" "Bucket" false).2 = true ∧
    (runDiscovery c2Backend).queries =
      [Query.broad "r1", Query.typed "r1" "Bucket", Query.typed "r1" "Instance"] := by
  decide

/-- C2 (amended): once a priority-type query yields at least one active
item the scanner sets the billable-hit flag (which then stays set) and
logs a bounded sample of at most 10 items per matching type, but it
does NOT stop: one query is issued for every billable type of the
region regardless of earlier hits. -/
theorem C2_amended (b : Backend) (region : String) (ts : List String) (hit : Bool)
    (t : String) (items sample : List ResourceItem)
    (hq : b.searchType region t = QueryResult.ok items)
    (ha : (items.filter is_active).isEmpty = false) :
    (pass2Step b region t hit).2 = true ∧
    (pass2Loop b region ts true).hit = true ∧
    (pass2Loop b region ts hit).queries = ts.map (Query.typed region) ∧
    (takeSampleLog sample).length ≤ 10 := by
  refine ⟨pass2Step_active_hit b region t hit items hq ha,
    pass2Loop_hit_true b region ts, pass2Loop_queries b region ts hit, ?_⟩
  unfold takeSampleLog
  rw [List.length_map, List.length_take]
  exact min_le_left 10 sample.length

/-- Witness for C2 (amended) at the backend whose first billable type
holds an active Bucket. -/
theorem C2_witness :
    c2Backend.searchType "r1" "Bucket" = QueryResult.ok [bucketItem] ∧
    (([bucketItem].filter is_active).isEmpty = false) ∧
    ((pass2Step c2Backend "r1" "Bucket" false).2 = true ∧
     (pass2Loop c2Backend "r1" ["Bucket", "Instance"] true).hit = true ∧
     (pass2Loop c2Backend "r1" ["Bucket", "Instance"] false).queries =
       ["Bucket", "Instance"].map (Query.typed "r1") ∧
     (takeSampleLog [bucketItem]).length ≤ 10) :=
  ⟨by decide, by decide,
   C2_amended c2Backend "r1" ["Bucket", "Instance"] false "Bucket" [bucketItem] [bucketItem]
     (by decide) (by decide)⟩

/-- C4 counterexample: the first billable type's query fails with a
generic exception and NOTHING is logged for it (`except Exception:
pass`, lines 157-158) — the failure is caught and treated as no match,
but it is not logged as a warning; the region still ends found=true via
the later type. -/
theorem C4_counterexample :
    c4Backend.searchType "r1" "Bucket" = QueryResult.otherError "boom" ∧
    (pass2Step c4Backend "r1" "Bucket" false).1 = [] ∧
    (runDiscovery c4Backend).state.found_regions = ["r1"] ∧
    lookupDict (runDiscovery c4Backend).state.reason_by_region "r1" = some "billable" := by
  decide

/-- C4 (amended): a per-type query failure is caught and treated as "no
match for that type": an `oci.exceptions.ServiceError` is logged as a
warning while any other exception is silently swallowed; in either case
the region's scan continues, and a region that fails on one priority
type but finds an active item via a later priority type is still flagged
with reason "billable". -/
theorem C4_amended (b : Backend) (s : ScanState) (region t code msg : String)
    (rest : List String) (t' : String) (items : List ResourceItem)
    (h1 : (pass1 b region).2 = false)
    (hmem : t' ∈ rest)
    (hq : b.searchType region t' = QueryResult.ok items)
    (ha : (items.filter is_active).isEmpty = false) :
    (b.searchType region t = QueryResult.serviceError code msg →
       pass2Step b region t false = ([LogEntry.typeServiceError region t code], false)) ∧
    (b.searchType region t = QueryResult.otherError msg →
       pass2Step b region t false = ([], false)) ∧
    ((scanRegion b (t :: rest) s region).state.found_regions =
       setAdd s.found_regions region ∧
     lookupDict (scanRegion b (t :: rest) s region).state.reason_by_region region =
       some "billable") := by
  refine ⟨fun he => pass2Step_serviceError b region t false code msg he,
    fun he => pass2Step_otherError b region t false msg he, ?_⟩
  have hhit : (pass2Loop b region (t :: rest) false).hit = true :=
    pass2Loop_hit_of_mem b region t' items hq ha (t :: rest) false
      (List.mem_cons_of_mem t hmem)
  rw [scanRegion_billable b (t :: rest) s region h1 hhit]
  exact ⟨rfl, lookupDict_dictSet_self _ _ _⟩

/-- Witness for C4 (amended) at the backend whose `Bucket` query raises
a generic exception while `Instance` holds an active item. -/
theorem C4_witness :
    (pass1 c4Backend "r1").2 = false ∧
    ((c4Backend.searchType "r1" "Bucket" = QueryResult.serviceError "500" "boom" →
        pass2Step c4Backend "r1" "Bucket" false =
          ([LogEntry.typeServiceError "r1" "Bucket" "500"], false)) ∧
     (c4Backend.searchType "r1" "Bucket" = QueryResult.otherError "boom" →
        pass2Step c4Backend "r1" "Bucket" false = ([], false)) ∧
     ((scanRegion c4Backend ["Bucket", "Instance"] ⟨[], []⟩ "r1").state.found_regions =
        setAdd ([] : List String) "r1" ∧
      lookupDict (scanRegion c4Backend ["Bucket", "Instance"] ⟨[], []⟩
        "r1").state.reason_by_region "r1" = some "billable")) :=
  ⟨by decide,
   C4_amended c4Backend ⟨[], []⟩ "r1" "Bucket" "500" "boom" ["Instance"] "Instance"
     [bucketItem] (by decide) (by decide) (by decide) (by decide)⟩

/-- C7 counterexample: with a catalog supporting only `Instance`, the
curated entry `Bucket` is unsupported and is excluded, but the complete
log of the run contains NO skipped-with-reason report for it — the
comprehension on lines 83-87 drops it silently (the source's own comment
on line 75 says "silent if unsupported"). -/
theorem C7_counterexample :
    "Bucket" ∈ important_billable_resources ∧
    lookupDict (buildSupportedLower ["Instance"]) (strLower "Bucket") = none ∧
    billable_types ["Instance"] = ["Instance"] ∧
    (runDiscovery c7Backend).log =
      [LogEntry.searchableEmpty "r1", LogEntry.noResources "r1", LogEntry.skipCleanup] := by
  decide

/-- C7 (amended): a curated priority type name not present
(case-insensitively) in the catalog is excluded without raising, but
SILENTLY — no skipped report is produced; entries that are present are
replaced by the catalog's canonical spelling (every resolved entry is a
catalog member obtained by looking up some curated name's lower-cased
form); and the resolution is computed once per run — every region that
reaches the billable pass queries exactly the same once-resolved list. -/
theorem C7_amended (b : Backend) (supported : List String) (s : ScanState)
    (region r : String)
    (hr : lookupDict (buildSupportedLower supported) (strLower r) = none)
    (hp : (pass1 b region).2 = false) :
    (∀ t ∈ billable_types supported, t ∈ supported ∧ strLower t ≠ strLower r) ∧
    (∀ t ∈ billable_types supported, ∃ rt ∈ important_billable_resources,
       lookupDict (buildSupportedLower supported) (strLower rt) = some t) ∧
    (scanRegion b (billable_types supported) s region).queries =
      Query.broad region :: (billable_types supported).map (Query.typed region) := by
  refine ⟨?_, ?_, scanRegion_queries_nohit b (billable_types supported) s region hp⟩
  · intro t ht
    rcases (mem_billable_types supported t).mp ht with ⟨r', _, hlook⟩
    obtain ⟨hsup, hlow⟩ := lookup_buildSupportedLower supported (strLower r') t hlook
    refine ⟨hsup, fun heq => ?_⟩
    rw [hlow.symm.trans heq] at hlook
    rw [hr] at hlook
    cases hlook
  · intro t ht
    rcases (mem_billable_types supported t).mp ht with ⟨r', hr', hlook⟩
    exact ⟨r', (mem_sortStrs r' important_billable_resources).mp hr', hlook⟩

/-- Witness for C7 (amended) at the catalog supporting only `Instance`,
with `Bucket` the unsupported curated entry. -/
theorem C7_witness :
    lookupDict (buildSupportedLower ["Instance"]) (strLower "Bucket") = none ∧
    (pass1 c7Backend "r1").2 = false ∧
    ((∀ t ∈ billable_types ["Instance"],
        t ∈ ["Instance"] ∧ strLower t ≠ strLower "Bucket") ∧
     (∀ t ∈ billable_types ["Instance"], ∃ rt ∈ important_billable_resources,
        lookupDict (buildSupportedLower ["Instance"]) (strLower rt) = some t) ∧
     (scanRegion c7Backend (billable_types ["Instance"]) ⟨[], []⟩ "r1").queries =
       Query.broad "r1" :: (billable_types ["Instance"]).map (Query.typed "r1")) :=
  ⟨by decide, by decide,
   C7_amended c7Backend ["Instance"] ⟨[], []⟩ "r1" "Bucket" (by decide) (by decide)⟩

/-- C8 counterexample: a region whose broad query raises an unexpected
error and whose per-type queries all fail ends as "No resources found":
the final state records nothing for it — the scan state has no
"unknown/error" outcome at all — and the run skips cleanup and exits 0,
exactly as for a truly empty region. -/
theorem C8_counterexample :
    c8Backend.searchAll "r1" = QueryResult.otherError "boom" ∧
    (runDiscovery c8Backend).log =
      [LogEntry.searchUnexpectedError "r1" "boom",
       LogEntry.typeServiceError "r1" "Bucket" "500",
       LogEntry.noResources "r1", LogEntry.skipCleanup] ∧
    (runDiscovery c8Backend).state = ⟨[], []⟩ ∧
    (runDiscovery c8Backend).exit_code = 0 := by
  decide

/-- C8 (amended): when a region's broad search raises an unexpected
error, a warning is logged at the point of failure, but the region is
not recorded in any distinct "unknown/error" state: if the billable pass
then finds nothing, the region gets the same "No resources found"
verdict and the scan state is left exactly as for a region with no
resources. -/
theorem C8_amended (b : Backend) (bt : List String) (s : ScanState) (region msg : String)
    (h1 : b.searchAll region = QueryResult.otherError msg)
    (h2 : (pass2Loop b region bt false).hit = false) :
    (scanRegion b bt s region).log =
      LogEntry.searchUnexpectedError region msg ::
        ((pass2Loop b region bt false).log ++ [LogEntry.noResources region]) ∧
    (scanRegion b bt s region).state = s := by
  have hp1 : pass1 b region = ([LogEntry.searchUnexpectedError region msg], false) := by
    unfold pass1
    rw [h1]
  have h1f : (pass1 b region).2 = false := by rw [hp1]
  rw [scanRegion_none b bt s region h1f h2]
  refine ⟨?_, rfl⟩
  rw [hp1]
  simp

/-- Witness for C8 (amended) at the backend whose broad query errors and
whose per-type queries all fail. -/
theorem C8_witness :
    c8Backend.searchAll "r1" = QueryResult.otherError "boom" ∧
    (pass2Loop c8Backend "r1" ["Bucket"] false).hit = false ∧
    ((scanRegion c8Backend ["Bucket"] ⟨[], []⟩ "r1").log =
       LogEntry.searchUnexpectedError "r1" "boom" ::
         ((pass2Loop c8Backend "r1" ["Bucket"] false).log ++ [LogEntry.noResources "r1"]) ∧
     (scanRegion c8Backend ["Bucket"] ⟨[], []⟩ "r1").state = ⟨[], []⟩) :=
  ⟨by decide, by decide,
   C8_amended c8Backend ["Bucket"] ⟨[], []⟩ "r1" "boom" (by decide) (by decide)⟩

/-- C9 counterexample: the external cleanup process exits non-zero, the
failure is caught and printed, and the run then falls off the end of the
script and exits 0 — the failure is NOT surfaced as a non-zero exit of
the run. -/
theorem C9_counterexample :
    c9Backend.cleanup_exit = 1 ∧
    (runDiscovery c9Backend).cleanup_calls = ["r1"] ∧
    LogEntry.cleanupFailed ∈ (runDiscovery c9Backend).log ∧
    (runDiscovery c9Backend).exit_code = 0 := by
  decide

/-- C9 (amended): if the external cleanup process exits non-zero, the
cleanup is invoked exactly once (no retry) and the failure is caught and
reported, but the run exits 0 — the non-zero status of the cleanup
process is not propagated. -/
theorem C9_amended (b : Backend) (supported : List String)
    (h : b.resource_types = Except.ok supported)
    (hne : (scanOf b supported).state.found_regions ≠ [])
    (hcl : b.cleanup_exit ≠ 0) :
    (runDiscovery b).cleanup_calls.length = 1 ∧
    LogEntry.cleanupFailed ∈ (runDiscovery b).log ∧
    (runDiscovery b).exit_code = 0 := by
  rw [runDiscovery_invoke b supported h hne]
  refine ⟨rfl, ?_, rfl⟩
  simp [hcl]

/-- Witness for C9 (amended) at the backend whose cleanup process exits 1. -/
theorem C9_witness :
    (scanOf c9Backend ["Bucket"]).state.found_regions ≠ [] ∧
    c9Backend.cleanup_exit ≠ 0 ∧
    ((runDiscovery c9Backend).cleanup_calls.length = 1 ∧
     LogEntry.cleanupFailed ∈ (runDiscovery c9Backend).log ∧
     (runDiscovery c9Backend).exit_code = 0) :=
  ⟨by decide, by decide, C9_amended c9Backend ["Bucket"] rfl (by decide) (by decide)⟩
